/-
Verification of the FiRe research-pipeline orchestration core.

Shallow embedding of the resilience primitives (src/utils/retry.py,
src/utils/fallback.py, src/utils/cache.py), the workflow routers and
identity-resolution stages (src/agents/graph_builder.py,
src/nodes/sec_data.py, src/nodes/company_validation.py) and the Group A
parallel fan-out (graph_builder.parallel_initial_data together with
nodes/sec_data.fetch_sec_data and nodes/web_research.fetch_company_profile).

Conventions:
- "time" is modelled as an exact rational number;
- Python truthiness of an optional / possibly-empty payload is modelled by
  Option (none = absent or empty, hence falsy; some = non-empty, truthy);
- a Python exception is modelled as the error case of Except.
-/
import Mathlib

namespace FiRe

/-! ## Retry decorator (src/utils/retry.py, retry / sync_wrapper lines 36-107)

One attempt of the wrapped callable either returns a value or raises an
exception; the exception is retryable when it is an instance of the
configured `exceptions` tuple.  `AttemptOutcome` records both the exception
value and whether it is retryable. -/

inductive AttemptOutcome (E A : Type) where
  | ok (a : A)
  | err (retryable : Bool) (e : E)
deriving DecidableEq

/-- The retry loop of `sync_wrapper` (identical in `async_wrapper`):
`for attempt in range(max_attempts)` with `remaining` attempts left and
`attempt` the current index.  On a retryable failure before the last attempt
it records the wait `backoff_factor ** attempt` and retries; on the last
attempt's retryable failure it re-raises (`raise`); a non-retryable failure
is not caught by `except exceptions` and propagates at once.  Falling out of
the loop (only possible when `max_attempts = 0`) reaches
`raise last_exception` with `last_exception = None`, modelled as
`Except.error none`.  The second component is the list of waits performed,
in order. -/
def retryLoop {E A : Type} (backoff_factor : ℚ) (f : Nat → AttemptOutcome E A) :
    Nat → Nat → Except (Option E) A × List ℚ
  | _, 0 => (Except.error none, [])
  | attempt, remaining + 1 =>
    match f attempt with
    | AttemptOutcome.ok a => (Except.ok a, [])
    | AttemptOutcome.err retryable e =>
      if retryable then
        if remaining = 0 then
          (Except.error (some e), [])
        else
          let rec_result := retryLoop backoff_factor f (attempt + 1) remaining
          (rec_result.1, backoff_factor ^ attempt :: rec_result.2)
      else
        (Except.error (some e), [])

/-- `retry(max_attempts, backoff_factor, exceptions)` applied to a callable
whose attempt outcomes are given by `f`. -/
def retryRun {E A : Type} (max_attempts : Nat) (backoff_factor : ℚ)
    (f : Nat → AttemptOutcome E A) : Except (Option E) A × List ℚ :=
  retryLoop backoff_factor f 0 max_attempts

/-- A run of the loop over a prefix of `k` retryable failures reduces to the
run starting at attempt `k`, with the `k` backoff waits recorded in front. -/
theorem retryLoop_skip {E A : Type} (b : ℚ) (f : Nat → AttemptOutcome E A) :
    ∀ (k i r : Nat), k < r →
      (∀ m, m < k → ∃ ex, f (i + m) = AttemptOutcome.err true ex) →
      retryLoop b f i r =
        ((retryLoop b f (i + k) (r - k)).1,
          ((List.range k).map (fun m => b ^ (i + m))) ++
            (retryLoop b f (i + k) (r - k)).2) := by
  intro k
  induction k with
  | zero =>
    intro i r _ _
    simp
  | succ k ih =>
    intro i r hkr hpre
    obtain ⟨r', rfl⟩ : ∃ r', r = r' + 1 := ⟨r - 1, by omega⟩
    obtain ⟨ex, hex⟩ := hpre 0 (Nat.succ_pos k)
    have hr' : r' ≠ 0 := by omega
    have step : retryLoop b f i (r' + 1) =
        ((retryLoop b f (i + 1) r').1,
          b ^ i :: (retryLoop b f (i + 1) r').2) := by
      simp only [retryLoop]
      rw [show i + 0 = i from rfl] at hex
      rw [hex]
      simp [hr']
    have ihh := ih (i + 1) r' (by omega)
      (fun m hm => by
        have := hpre (m + 1) (by omega)
        simpa [Nat.add_assoc, Nat.add_comm 1 m] using this)
    rw [step, ihh]
    have harith1 : i + 1 + k = i + (k + 1) := by omega
    have harith2 : r' - k = r' + 1 - (k + 1) := by omega
    rw [harith1, harith2]
    refine Prod.ext rfl ?_
    simp only [List.range_succ_eq_map, List.map_cons, List.map_map, List.cons_append]
    refine congrArg₂ List.cons rfl (congrArg₂ HAppend.hAppend ?_ rfl)
    refine List.map_congr_left ?_
    intro m _
    simp only [Function.comp]
    exact congrArg (b ^ ·) (by omega)

/-- Claim C3: for a `retry(max_attempts, backoff_factor, exceptions)`-wrapped
call: (1) if the underlying call fails with a retryable exception exactly
`k < max_attempts` times and then succeeds, the wrapped call returns the
success value after exactly `k` waits of durations
`backoff_factor^0, …, backoff_factor^(k-1)`; (2) if every one of the
`max_attempts` attempts fails with a retryable exception, the final
attempt's exception is re-raised unchanged; (3) a non-retryable exception
(after any prefix of retryable failures) propagates at its first
occurrence, with no further attempts and no further waits. -/
theorem retry_exactness {E A : Type} (max_attempts : Nat) (b : ℚ)
    (f : Nat → AttemptOutcome E A) (k : Nat) (a : A) (e : Nat → E)
    (j : Nat) (e0 : E) :
    (k < max_attempts →
      (∀ i, i < k → ∃ ex, f i = AttemptOutcome.err true ex) →
      f k = AttemptOutcome.ok a →
      retryRun max_attempts b f =
        (Except.ok a, (List.range k).map (fun m => b ^ m))) ∧
    (1 ≤ max_attempts →
      (∀ i, i < max_attempts → f i = AttemptOutcome.err true (e i)) →
      (retryRun max_attempts b f).1 =
        Except.error (some (e (max_attempts - 1)))) ∧
    (j < max_attempts →
      (∀ i, i < j → ∃ ex, f i = AttemptOutcome.err true ex) →
      f j = AttemptOutcome.err false e0 →
      retryRun max_attempts b f =
        (Except.error (some e0), (List.range j).map (fun m => b ^ m))) := by
  refine ⟨?_, ?_, ?_⟩
  · intro hk hpre hok
    have hskip := retryLoop_skip b f k 0 max_attempts hk
      (fun m hm => by simpa using hpre m hm)
    obtain ⟨r', hr'⟩ : ∃ r', max_attempts - k = r' + 1 := ⟨max_attempts - k - 1, by omega⟩
    unfold retryRun
    rw [hskip]
    simp only [Nat.zero_add, hr', retryLoop]
    rw [hok]
    simp
  · intro hmax hall
    have hskip := retryLoop_skip b f (max_attempts - 1) 0 max_attempts (by omega)
      (fun m hm => ⟨e m, by simpa using hall m (by omega)⟩)
    unfold retryRun
    rw [hskip]
    have hone : max_attempts - (max_attempts - 1) = 1 := by omega
    simp only [Nat.zero_add, hone, retryLoop]
    rw [hall (max_attempts - 1) (by omega)]
    simp
  · intro hj hpre hbad
    have hskip := retryLoop_skip b f j 0 max_attempts hj
      (fun m hm => by simpa using hpre m hm)
    obtain ⟨r', hr'⟩ : ∃ r', max_attempts - j = r' + 1 := ⟨max_attempts - j - 1, by omega⟩
    unfold retryRun
    rw [hskip]
    simp only [Nat.zero_add, hr', retryLoop]
    rw [hbad]
    simp

/-- A concrete callable for the retry witness: attempts 0 and 1 raise a
retryable error, attempt 2 succeeds with 42. -/
def retryWitnessCall : Nat → AttemptOutcome String Nat :=
  fun i => if i < 2 then AttemptOutcome.err true "boom" else AttemptOutcome.ok 42

theorem retry_exactness_witness :
    (2 < 4 ∧ retryWitnessCall 2 = AttemptOutcome.ok 42) ∧
    retryRun 4 2 retryWitnessCall =
      (Except.ok 42, (List.range 2).map (fun m => (2 : ℚ) ^ m)) := by
  refine ⟨⟨by norm_num, rfl⟩, ?_⟩
  refine (retry_exactness 4 2 retryWitnessCall 2 42 (fun _ => "boom") 0 "boom").1
    (by norm_num) ?_ rfl
  intro i hi
  refine ⟨"boom", ?_⟩
  interval_cases i <;> rfl

/-! ## Rate limiter (src/utils/retry.py, rate_limit lines 112-148)

`rate_limit(calls_per_second)` keeps one `last_called` timestamp.  On each
call with current wall-clock `now`: `elapsed = now - last_called`; if
`elapsed < min_interval` it sleeps `min_interval - elapsed`, so the wrapped
function is invoked at `last_called + min_interval`, otherwise at `now`;
`last_called` is then set to the invocation time. -/

def rlInvoke (min_interval last_called now : ℚ) : ℚ :=
  if now - last_called < min_interval then last_called + min_interval else now

/-- Invocation time of the last of a sequence of calls issued sequentially
through one limiter: the first call is issued at wall-clock `now`; each
subsequent call is issued `g` time units (`g ≥ 0`) after the previous
invocation (a sequential caller can issue the next call no earlier than the
previous invocation), with `gaps` listing these delays. -/
def rlLastInvocation (min_interval : ℚ) : ℚ → ℚ → List ℚ → ℚ
  | last_called, now, [] => rlInvoke min_interval last_called now
  | last_called, now, g :: gaps =>
    let t := rlInvoke min_interval last_called now
    rlLastInvocation min_interval t (t + g) gaps

theorem rlInvoke_ge_now (m last now : ℚ) : now ≤ rlInvoke m last now := by
  unfold rlInvoke
  split <;> linarith

theorem rlInvoke_ge_last (m last now : ℚ) :
    last + m ≤ rlInvoke m last now := by
  unfold rlInvoke
  split <;> linarith

theorem rlLastInvocation_ge (m : ℚ) :
    ∀ (gaps : List ℚ), (∀ g ∈ gaps, 0 ≤ g) → ∀ (last now : ℚ),
      rlInvoke m last now + gaps.length * m ≤ rlLastInvocation m last now gaps := by
  intro gaps
  induction gaps with
  | nil =>
    intro _ last now
    simp [rlLastInvocation]
  | cons g gaps ih =>
    intro hpos last now
    have hg : 0 ≤ g := hpos g (List.mem_cons_self g gaps)
    have h2 : rlInvoke m last now + m ≤
        rlInvoke m (rlInvoke m last now) (rlInvoke m last now + g) :=
      rlInvoke_ge_last m (rlInvoke m last now) (rlInvoke m last now + g)
    have ih2 := ih (fun x hx => hpos x (List.mem_cons_of_mem g hx))
      (rlInvoke m last now) (rlInvoke m last now + g)
    simp only [rlLastInvocation, List.length_cons]
    push_cast
    linarith

/-- Claim C9: issuing `N = gaps.length + 1` calls sequentially through one
`rate_limit(c)`-wrapped callable takes at least `(N-1)/c` time units
end-to-end: the last invocation happens no earlier than
`(N-1) * (1/c)` after the wall-clock time `now` at which the first call was
issued, for any initial `last_called` timestamp and any non-negative
inter-call delays. -/
theorem rate_limit_spacing (c : ℚ) (_hc : 0 < c) (gaps : List ℚ)
    (hgaps : ∀ g ∈ gaps, 0 ≤ g) (last_called now : ℚ) :
    now + gaps.length * (1 / c) ≤ rlLastInvocation (1 / c) last_called now gaps := by
  have h1 := rlLastInvocation_ge (1 / c) gaps hgaps last_called now
  have h2 := rlInvoke_ge_now (1 / c) last_called now
  linarith

theorem rate_limit_spacing_witness :
    ((0 : ℚ) < 2 ∧ ((∀ g ∈ ([0, 0] : List ℚ), (0 : ℚ) ≤ g))) ∧
    (100 : ℚ) + (2 : ℕ) * (1 / 2) ≤ rlLastInvocation (1 / 2) 0 100 [0, 0] := by
  refine ⟨⟨by norm_num, by intro g hg; fin_cases hg <;> norm_num⟩, ?_⟩
  simpa using rate_limit_spacing 2 (by norm_num) [0, 0]
    (by intro g hg; fin_cases hg <;> norm_num) 0 100

/-! ## FallbackChain (src/utils/fallback.py, FallbackChain.execute lines 35-64)

A strategy invocation either raises an exception or returns a result; a
returned result is truthy (`returns (some a)`) or falsy (`returns none`,
covering Python `None` and empty collections). -/

inductive StratOutcome (E A : Type) where
  | raises (e : E)
  | returns (r : Option A)
deriving DecidableEq

inductive ChainError (E : Type) where
  | noStrategies
  | raised (e : E)
deriving DecidableEq

/-- The `for strategy_name, func in self.strategies` loop of `execute`,
carrying `last_error`.  The second component counts how many strategies were
invoked. -/
def chainLoop {E A : Type} :
    List (StratOutcome E A) → Option E → Except (ChainError E) (Option A) × Nat
  | [], none => (Except.ok none, 0)
  | [], some e => (Except.error (ChainError.raised e), 0)
  | s :: rest, last_error =>
    match s with
    | StratOutcome.returns (some a) => (Except.ok (some a), 1)
    | StratOutcome.returns none =>
      let p := chainLoop rest last_error
      (p.1, p.2 + 1)
    | StratOutcome.raises e =>
      let p := chainLoop rest (some e)
      (p.1, p.2 + 1)

/-- `FallbackChain.execute`: raises `ValueError` (`ChainError.noStrategies`)
on an empty strategy list, else runs the loop with `last_error = None`. -/
def executeChain {E A : Type} (strategies : List (StratOutcome E A)) :
    Except (ChainError E) (Option A) × Nat :=
  match strategies with
  | [] => (Except.error ChainError.noStrategies, 0)
  | s :: rest => chainLoop (s :: rest) none

theorem executeChain_ne_nil {E A : Type} (strategies : List (StratOutcome E A))
    (h : strategies ≠ []) : executeChain strategies = chainLoop strategies none := by
  cases strategies with
  | nil => exact absurd rfl h
  | cons s rest => rfl

/-- The value of `last_error` after the loop has passed over `pre`. -/
def lastErrAfter {E A : Type} : List (StratOutcome E A) → Option E → Option E
  | [], le => le
  | StratOutcome.raises e :: rest, _ => lastErrAfter rest (some e)
  | StratOutcome.returns _ :: rest, le => lastErrAfter rest le

theorem chainLoop_skip {E A : Type} :
    ∀ (pre : List (StratOutcome E A)),
      (∀ s ∈ pre, s = StratOutcome.returns none ∨ ∃ e, s = StratOutcome.raises e) →
      ∀ (rest : List (StratOutcome E A)) (le : Option E),
        chainLoop (pre ++ rest) le =
          ((chainLoop rest (lastErrAfter pre le)).1,
            (chainLoop rest (lastErrAfter pre le)).2 + pre.length) := by
  intro pre
  induction pre with
  | nil => intro _ rest le; simp [lastErrAfter]
  | cons s pre ih =>
    intro hpre rest le
    have hs := hpre s (List.mem_cons_self s pre)
    have htail : ∀ x ∈ pre, x = StratOutcome.returns none ∨ ∃ e, x = StratOutcome.raises e :=
      fun x hx => hpre x (List.mem_cons_of_mem s hx)
    rcases hs with hs | ⟨e, hs⟩ <;> subst hs <;>
      simp [chainLoop, lastErrAfter, ih htail, Nat.add_assoc, Nat.add_comm 1]

theorem lastErrAfter_all_empty {E A : Type} :
    ∀ (pre : List (StratOutcome E A)), (∀ s ∈ pre, s = StratOutcome.returns none) →
      ∀ le, lastErrAfter pre le = le := by
  intro pre
  induction pre with
  | nil => intro _ le; rfl
  | cons s pre ih =>
    intro h le
    have hs := h s (List.mem_cons_self s pre)
    subst hs
    exact ih (fun x hx => h x (List.mem_cons_of_mem _ hx)) le

/-- Claim C7: `FallbackChain.execute` on a non-empty strategy list:
(1) strategies are tried in registration order and the first truthy result
is returned, having invoked exactly the strategies up to and including the
succeeding one (strategies returning an empty result fall through without
raising); (2) if every strategy fails by exception, the last exception is
re-raised; (3) if every strategy returns an empty result without raising,
`execute` returns the empty result `None` rather than raising. -/
theorem fallback_chain_execute {E A : Type}
    (pre post init strategies : List (StratOutcome E A)) (a : A) (e : E) :
    ((∀ s ∈ pre, s = StratOutcome.returns none ∨ ∃ ex, s = StratOutcome.raises ex) →
      executeChain (pre ++ StratOutcome.returns (some a) :: post) =
        (Except.ok (some a), pre.length + 1)) ∧
    ((∀ s ∈ init, ∃ ex, s = StratOutcome.raises ex) →
      executeChain (init ++ [StratOutcome.raises e]) =
        (Except.error (ChainError.raised e), init.length + 1)) ∧
    (strategies ≠ [] → (∀ s ∈ strategies, s = StratOutcome.returns none) →
      executeChain strategies = (Except.ok none, strategies.length)) := by
  refine ⟨?_, ?_, ?_⟩
  · intro hpre
    rw [executeChain_ne_nil _ (by simp)]
    rw [chainLoop_skip pre hpre]
    simp [chainLoop, Nat.add_comm]
  · intro hinit
    rw [executeChain_ne_nil _ (by simp)]
    rw [chainLoop_skip init (fun s hs => Or.inr (hinit s hs))]
    simp [chainLoop, Nat.add_comm]
  · intro hne hall
    rw [executeChain_ne_nil _ hne]
    have h0 := chainLoop_skip strategies
      (fun s hs => Or.inl (hall s hs)) [] none
    rw [List.append_nil] at h0
    rw [h0, lastErrAfter_all_empty strategies hall none]
    simp [chainLoop]

theorem fallback_chain_execute_witness :
    executeChain [StratOutcome.returns (none : Option Nat),
        StratOutcome.returns (some 5),
        StratOutcome.raises "never invoked"] =
      (Except.ok (some 5), 2) := by
  have h := (fallback_chain_execute
    [StratOutcome.returns (none : Option Nat)]
    [StratOutcome.raises "never invoked"] [] [] 5 "unused").1
    (by intro s hs; fin_cases hs; exact Or.inl rfl)
  simpa using h

/-! ## ServiceFallback (src/utils/fallback.py, ServiceFallback.call lines 113-140) -/

structure Service (A : Type) where
  name : String
  outcome : StratOutcome String A

/-- The `for service in self.services` loop of `ServiceFallback.call`
(the service list is already sorted by priority by `register`).  Counters
are Python integers keyed by service name.  A service with more than 3
recorded failures is skipped; a raised exception increments its failure
count; a truthy result increments its success count, decrements its failure
count (floored at 0) and is returned; a falsy result changes nothing and
the next service is tried. -/
def serviceCall {A : Type} :
    List (Service A) → (String → ℤ) → (String → ℤ) →
      Option A × (String → ℤ) × (String → ℤ)
  | [], failure_counts, success_counts => (none, failure_counts, success_counts)
  | svc :: rest, failure_counts, success_counts =>
    if failure_counts svc.name > 3 then
      serviceCall rest failure_counts success_counts
    else
      match svc.outcome with
      | StratOutcome.raises _ =>
        serviceCall rest
          (fun m => if m = svc.name then failure_counts svc.name + 1 else failure_counts m)
          success_counts
      | StratOutcome.returns none =>
        serviceCall rest failure_counts success_counts
      | StratOutcome.returns (some a) =>
        (some a,
          fun m => if m = svc.name then max 0 (failure_counts svc.name - 1) else failure_counts m,
          fun m => if m = svc.name then success_counts svc.name + 1 else success_counts m)

/-- Claim C10: in `ServiceFallback.call`, a tried (non-skipped) service that
returns a falsy result without raising changes neither counter and the next
service in priority order is tried (the call behaves exactly as if invoked
on the remaining services with the same counters); the counters change only
when a service returns a truthy result (success +1, failure decremented
with floor 0, result returned) or raises (failure +1, next service tried). -/
theorem service_fallback_frame {A : Type} (svc : Service A)
    (rest : List (Service A)) (failure_counts success_counts : String → ℤ)
    (a : A) (e : String) (hns : ¬ failure_counts svc.name > 3) :
    (svc.outcome = StratOutcome.returns none →
      serviceCall (svc :: rest) failure_counts success_counts =
        serviceCall rest failure_counts success_counts) ∧
    (svc.outcome = StratOutcome.returns (some a) →
      serviceCall (svc :: rest) failure_counts success_counts =
        (some a,
          fun m => if m = svc.name then max 0 (failure_counts svc.name - 1)
            else failure_counts m,
          fun m => if m = svc.name then success_counts svc.name + 1
            else success_counts m)) ∧
    (svc.outcome = StratOutcome.raises e →
      serviceCall (svc :: rest) failure_counts success_counts =
        serviceCall rest
          (fun m => if m = svc.name then failure_counts svc.name + 1 else failure_counts m)
          success_counts) := by
  refine ⟨?_, ?_, ?_⟩ <;> intro hout <;> simp [serviceCall, hns, hout]

theorem service_fallback_frame_witness :
    serviceCall [Service.mk "primary" (StratOutcome.returns (none : Option Nat)),
        Service.mk "backup" (StratOutcome.returns (some 9))]
      (fun _ => 0) (fun _ => 0) =
      serviceCall [Service.mk "backup" (StratOutcome.returns (some 9))]
        (fun _ => 0) (fun _ => 0) :=
  (service_fallback_frame (Service.mk "primary" (StratOutcome.returns none))
    [Service.mk "backup" (StratOutcome.returns (some 9))]
    (fun _ => 0) (fun _ => 0) 9 "unused" (by norm_num)).1 rfl

/-! ## FileCache (src/utils/cache.py, FileCache.set lines 53-75, FileCache.get
lines 77-105, FileCache.delete lines 107-113)

The cache keeps, per key, a value file (`<safe_key>.cache`) and a metadata
file (`<safe_key>.meta`); both maps are indexed by the sanitized key
produced by `_get_path`.  Wall-clock time is an explicit rational
parameter. -/

def sanitizeKey (key : String) : String :=
  String.mk (key.toList.map (fun c =>
    if c.isAlphanum ∨ c = '_' ∨ c = '-' then c else '_'))

structure CacheMeta where
  timestamp : ℚ
  ttl : ℚ
  key : String
deriving DecidableEq

structure FileCacheState (V : Type) where
  default_ttl : ℚ
  data_files : String → Option V
  meta_files : String → Option CacheMeta

/-- Python `ttl or self.ttl`: the explicit argument wins unless it is falsy
(`None` or `0`). -/
def pyOrTtl (ttl : Option ℚ) (default_ttl : ℚ) : ℚ :=
  match ttl with
  | some t => if t = 0 then default_ttl else t
  | none => default_ttl

/-- `FileCache.set(key, value, ttl)`: writes the value file and the metadata
record with the current timestamp. -/
def cacheSet {V : Type} (st : FileCacheState V) (key : String) (value : V)
    (ttl : Option ℚ) (now : ℚ) : FileCacheState V :=
  let path := sanitizeKey key
  { st with
    data_files := fun p => if p = path then some value else st.data_files p
    meta_files := fun p =>
      if p = path then some ⟨now, pyOrTtl ttl st.default_ttl, key⟩
      else st.meta_files p }

/-- `FileCache.delete(key)`: unlinks both files. -/
def cacheDelete {V : Type} (st : FileCacheState V) (key : String) :
    FileCacheState V :=
  let path := sanitizeKey key
  { st with
    data_files := fun p => if p = path then none else st.data_files p
    meta_files := fun p => if p = path then none else st.meta_files p }

/-- `FileCache.get(key)`: absent if either file is missing; if
`now - timestamp > ttl` the entry is deleted and absent is returned;
otherwise the stored value is returned. -/
def cacheGet {V : Type} (st : FileCacheState V) (key : String) (now : ℚ) :
    Option V × FileCacheState V :=
  let path := sanitizeKey key
  match st.data_files path, st.meta_files path with
  | some v, some meta =>
    if now - meta.timestamp > meta.ttl then (none, cacheDelete st key)
    else (some v, st)
  | _, _ => (none, st)

/-- Claim C8: after `set(key, v, ttl)` at time `now`, a `get(key)` at time
`now'` returns `v` (leaving the store unchanged) whenever the elapsed time
is at most `ttl`; once the elapsed time exceeds `ttl`, `get(key)` returns
absent and removes both the value and the metadata entry from the store. -/
theorem cache_ttl_roundtrip {V : Type} (st : FileCacheState V) (key : String)
    (v : V) (ttl now fetch_time : ℚ) (hpos : 0 < ttl) :
    (fetch_time - now ≤ ttl →
      cacheGet (cacheSet st key v (some ttl) now) key fetch_time =
        (some v, cacheSet st key v (some ttl) now)) ∧
    (fetch_time - now > ttl →
      (cacheGet (cacheSet st key v (some ttl) now) key fetch_time).1 = none ∧
      ((cacheGet (cacheSet st key v (some ttl) now) key fetch_time).2.data_files
        (sanitizeKey key) = none) ∧
      ((cacheGet (cacheSet st key v (some ttl) now) key fetch_time).2.meta_files
        (sanitizeKey key) = none)) := by
  have httl : pyOrTtl (some ttl) st.default_ttl = ttl := by
    simp [pyOrTtl, ne_of_gt hpos]
  constructor
  · intro hfresh
    simp [cacheGet, cacheSet, httl, not_lt.mpr hfresh]
  · intro hstale
    simp [cacheGet, cacheSet, cacheDelete, httl, hstale]

theorem cache_ttl_roundtrip_witness :
    ((0 : ℚ) < 1) ∧
    (cacheGet (cacheSet (FileCacheState.mk 3600 (fun _ => (none : Option Nat))
          (fun _ => none)) "k" 7 (some 1) 10) "k" (21 / 2) =
      (some 7, cacheSet (FileCacheState.mk 3600 (fun _ => (none : Option Nat))
          (fun _ => none)) "k" 7 (some 1) 10)) ∧
    ((cacheGet (cacheSet (FileCacheState.mk 3600 (fun _ => (none : Option Nat))
          (fun _ => none)) "k" 7 (some 1) 10) "k" 12).1 = none) := by
  refine ⟨by norm_num, ?_, ?_⟩
  · exact (cache_ttl_roundtrip _ "k" 7 1 10 (21 / 2) (by norm_num)).1 (by norm_num)
  · exact ((cache_ttl_roundtrip _ "k" 7 1 10 12 (by norm_num)).2 (by norm_num)).1

/-! ## State model and identity-resolution stages
(src/agents/state.py, src/agents/graph_builder.py, src/nodes/sec_data.py,
src/nodes/company_validation.py) -/

/-- Python `str.upper()` (ASCII; no caller here produces non-ASCII). -/
def pyUpper (s : String) : String :=
  String.mk (s.toList.map Char.toUpper)

/-- Python `str.strip()`. -/
def pyStrip (s : String) : List Char :=
  ((s.toList.dropWhile Char.isWhitespace).reverse.dropWhile Char.isWhitespace).reverse

/-- Value of a digit run, most significant first. -/
def pyIntDigitsVal (digits : List Char) : Int :=
  digits.foldl (fun n c => n * 10 + ((c.toNat : Int) - 48)) 0

/-- Python `int(s)` restricted to plain decimal strings: strip whitespace,
optional sign, then a non-empty digit run.  (Python additionally accepts
underscore separators and non-ASCII digits; no caller here produces
those.)  Returns `none` where `int` raises `ValueError`. -/
def pyInt (s : String) : Option Int :=
  match pyStrip s with
  | [] => none
  | '-' :: d =>
    if d ≠ [] ∧ d.all Char.isDigit then some (-(pyIntDigitsVal d)) else none
  | '+' :: d =>
    if d ≠ [] ∧ d.all Char.isDigit then some (pyIntDigitsVal d) else none
  | d =>
    if d.all Char.isDigit then some (pyIntDigitsVal d) else none

/-- Python `f"{n:010d}"`: zero-pad to a total width of 10 (sign included). -/
def pyFormat010d (n : Int) : String :=
  let s := toString n.natAbs
  if n < 0 then
    "-" ++ String.mk (List.replicate (9 - s.length) '0') ++ s
  else
    String.mk (List.replicate (10 - s.length) '0') ++ s

/-- agents/state.CompanyMatch: `cik10` is the optional 10-digit derived
form of `cik_str`. -/
structure CompanyMatch where
  title : String
  ticker : String
  cik_str : String
  cik10 : Option String
deriving DecidableEq

/-- The pydantic `compute_cik10` validator applied at construction when
`cik10` is not supplied: derived from a truthy (non-empty) `cik_str` by
`int` conversion and `f"{…:010d}"`; a non-numeric `cik_str` leaves it
absent. -/
def mkCompanyMatch (title ticker cik_str : String) : CompanyMatch :=
  ⟨title, ticker, cik_str,
    if cik_str = "" then none else (pyInt cik_str).map pyFormat010d⟩

/-- The dict parsed from the LLM validation response; `result.get` treats
each entry as optional. -/
structure LLMValidationOutput where
  confidence : Option String
  match_result : Option String
  reasoning : Option String
deriving DecidableEq

/-- The `state.validation_result` dict stored by `validate_company_match`. -/
structure ValidationRecord where
  confidence : String
  match_result : String
  reasoning : String
  validated_company : CompanyMatch
deriving DecidableEq

/-- agents/state.ResearchState, restricted to the fields read or written by
the routers and the identity-resolution stages. -/
structure RState where
  company_name : String
  current_node : String
  error_message : Option String
  match_options : List CompanyMatch
  human_response : Option String
  found : Option CompanyMatch
  cik10 : Option String
  llm_validation_passed : Bool
  validation_result : Option ValidationRecord
deriving DecidableEq

/-- graph_builder.should_validate (lines 44-59): pre-resolved identity goes
straight to data collection; no candidates go to suggestions; otherwise
validation is mandatory. -/
def should_validate (state : RState) : String :=
  if state.found.isSome then "data_collection"
  else if state.match_options = [] then "suggest"
  else "validate"

/-- graph_builder.should_resolve (lines 74-85): proceed iff
`llm_validation_passed`. -/
def should_resolve (state : RState) : String :=
  if state.llm_validation_passed then "data_collection" else "resolve"

/-- nodes/company_validation.validate_company_match (lines 29-137) as a
function of the incoming state and of the outcome of the LLM chain
invocation; `Except.error` models an exception raised inside the `try`
block (the LLM call), with the exception text. -/
def validate_company_match (state : RState)
    (llm : Except String LLMValidationOutput) : RState :=
  let state := { state with current_node := "validate_match" }
  match state.match_options with
  | [] => { state with error_message := some "No company matches found" }
  | top_match :: _ =>
    match llm with
    | Except.error e =>
      { state with
        llm_validation_passed := false,
        error_message := some ("Validation error: " ++ e) }
    | Except.ok result =>
      let confidence := pyUpper (result.confidence.getD "LOW")
      let match_result := pyUpper (result.match_result.getD "NO")
      let reasoning := result.reasoning.getD ""
      let state := { state with
        validation_result := some ⟨confidence, match_result, reasoning, top_match⟩ }
      if confidence = "HIGH" ∧ match_result = "YES" then
        { state with
          found := some top_match,
          cik10 := top_match.cik10,
          llm_validation_passed := true }
      else
        { state with llm_validation_passed := false }

/-- Claim C5: the router after `match_candidates` returns `data_collection`
whenever `found` is already set, `suggest` whenever `found` is absent and
`match_options` is empty, and `validate` in every other case — in
particular, for exactly one candidate and no pre-resolved identity it
returns `validate`, never `data_collection`. -/
theorem match_router_rule (state : RState) (m single : CompanyMatch) :
    (state.found = some m → should_validate state = "data_collection") ∧
    (state.found = none → state.match_options = [] →
      should_validate state = "suggest") ∧
    (state.found = none → state.match_options ≠ [] →
      should_validate state = "validate") ∧
    (state.found = none → state.match_options = [single] →
      should_validate state = "validate" ∧ should_validate state ≠ "data_collection") := by
  refine ⟨?_, ?_, ?_, ?_⟩
  · intro h; simp [should_validate, h]
  · intro h1 h2; simp [should_validate, h1, h2]
  · intro h1 h2; simp [should_validate, h1, h2]
  · intro h1 h2; simp [should_validate, h1, h2]

theorem match_router_rule_witness :
    should_validate (RState.mk "Apple" "fuzzy_match" none
        [mkCompanyMatch "Apple Inc." "AAPL" "320193"] none none none false none) =
      "validate" :=
  ((match_router_rule
    (RState.mk "Apple" "fuzzy_match" none
        [mkCompanyMatch "Apple Inc." "AAPL" "320193"] none none none false none)
    (mkCompanyMatch "Apple Inc." "AAPL" "320193")
    (mkCompanyMatch "Apple Inc." "AAPL" "320193")).2.2.2 rfl rfl).1

/-- Claim C4: on a state that has not already passed validation, the run
proceeds from the validation stage to data collection if and only if the
LLM call returned a result whose (defaulted, upper-cased) confidence is
`HIGH` and match is `YES` on a non-empty candidate list; in that case
`found`, `cik10` and `llm_validation_passed` are set from the top
candidate; in every other case — including a raised validation call —
`llm_validation_passed` is left `false` and the router sends the run to
human resolution. -/
theorem validation_gate (state : RState) (llm : Except String LLMValidationOutput)
    (h0 : state.llm_validation_passed = false) :
    (should_resolve (validate_company_match state llm) = "data_collection" ↔
      (∃ result top_match rest, llm = Except.ok result ∧
        state.match_options = top_match :: rest ∧
        pyUpper (result.confidence.getD "LOW") = "HIGH" ∧
        pyUpper (result.match_result.getD "NO") = "YES")) ∧
    (∀ result top_match rest, llm = Except.ok result →
      state.match_options = top_match :: rest →
      pyUpper (result.confidence.getD "LOW") = "HIGH" →
      pyUpper (result.match_result.getD "NO") = "YES" →
      (validate_company_match state llm).found = some top_match ∧
      (validate_company_match state llm).cik10 = top_match.cik10 ∧
      (validate_company_match state llm).llm_validation_passed = true) ∧
    ((validate_company_match state llm).llm_validation_passed = false →
      should_resolve (validate_company_match state llm) = "resolve") := by
  refine ⟨?_, ?_, ?_⟩
  · cases hm : state.match_options with
    | nil =>
      cases llm <;> simp [validate_company_match, should_resolve, hm, h0]
    | cons top rest =>
      cases llm with
      | error e => simp [validate_company_match, should_resolve, hm]
      | ok result =>
        by_cases hc : pyUpper (result.confidence.getD "LOW") = "HIGH" ∧
            pyUpper (result.match_result.getD "NO") = "YES"
        · refine iff_of_true ?_ ⟨result, top, rest, rfl, rfl, hc.1, hc.2⟩
          simp [validate_company_match, should_resolve, hm, hc.1, hc.2]
        · refine iff_of_false ?_ ?_
          · have hpass : (validate_company_match state (Except.ok result)).llm_validation_passed = false := by
              simp only [validate_company_match, hm]
              rw [if_neg hc]
            simp [should_resolve, hpass]
          · rintro ⟨result', top', rest', heq, hm', hc', hy'⟩
            injection heq with hres
            subst hres
            exact hc ⟨hc', hy'⟩
  · intro result top_match rest hllm hm hc hy
    subst hllm
    simp [validate_company_match, hm, hc, hy]
  · intro hfail
    simp [should_resolve, hfail]

theorem validation_gate_witness :
    ((RState.mk "Apple" "fuzzy_match" none
        [mkCompanyMatch "Apple Inc." "AAPL" "320193"] none none none false
        none).llm_validation_passed = false) ∧
    should_resolve (validate_company_match
      (RState.mk "Apple" "fuzzy_match" none
        [mkCompanyMatch "Apple Inc." "AAPL" "320193"] none none none false none)
      (Except.ok (LLMValidationOutput.mk (some "HIGH") (some "YES")
        (some "exact name")))) = "data_collection" := by
  refine ⟨rfl, ?_⟩
  exact (validation_gate
    (RState.mk "Apple" "fuzzy_match" none
      [mkCompanyMatch "Apple Inc." "AAPL" "320193"] none none none false none)
    (Except.ok (LLMValidationOutput.mk (some "HIGH") (some "YES")
      (some "exact name"))) rfl).1.mpr
    ⟨LLMValidationOutput.mk (some "HIGH") (some "YES") (some "exact name"),
      mkCompanyMatch "Apple Inc." "AAPL" "320193", [], rfl, rfl, rfl, rfl⟩

/-- nodes/sec_data.resolve_company_selection (lines 132-167).  A raised
exception is modelled as `Except.error (message, state-at-raise)`, so the
state visible when the run aborts is explicit; `Except.ok` is the returned
state. -/
def resolve_company_selection (state : RState) : Except (String × RState) RState :=
  let state := { state with current_node := "resolve" }
  if state.human_response = none ∨ state.human_response = some "" then
    Except.error ("human_response is required (user must select a company)", state)
  else if state.match_options = [] then
    Except.error ("No match options available", state)
  else
    match pyInt (state.human_response.getD "") with
    | none => Except.error ("Invalid selection", state)
    | some n =>
      let selection_index := n - 1
      if selection_index < 0 ∨ selection_index ≥ state.match_options.length then
        Except.error ("Selection is out of range", state)
      else
        let selected := state.match_options.getD selection_index.toNat
          (CompanyMatch.mk "" "" "" none)
        Except.ok { state with found := some selected, cik10 := selected.cik10 }

/-- Claim C6: given non-empty `match_options` and a `human_response` that
parses as an integer `i` with `1 ≤ i ≤ len(match_options)`,
`resolve_company_selection` returns the state with `found` set to the
`i`-th (1-based) candidate and `cik10` to that candidate's `cik10`; given a
missing or empty `human_response`, a non-numeric one, empty
`match_options`, or an out-of-range index, it raises — aborting the run —
without setting `found` or `cik10`. -/
theorem resolve_selection_rule (state : RState) (hr : String) (i : Int) :
    ((state.match_options ≠ [] → state.human_response = some hr → hr ≠ "" →
      pyInt hr = some i → 1 ≤ i → i ≤ state.match_options.length →
      resolve_company_selection state =
        Except.ok { state with
          current_node := "resolve",
          found := some (state.match_options.getD (i - 1).toNat
            (CompanyMatch.mk "" "" "" none)),
          cik10 := (state.match_options.getD (i - 1).toNat
            (CompanyMatch.mk "" "" "" none)).cik10 })) ∧
    ((state.human_response = none ∨ state.human_response = some "" ∨
        state.match_options = [] ∨
        pyInt (state.human_response.getD "") = none ∨
        (∃ j, pyInt (state.human_response.getD "") = some j ∧
          (j < 1 ∨ (state.match_options.length : Int) < j))) →
      ∃ msg aborted, resolve_company_selection state = Except.error (msg, aborted) ∧
        aborted.found = state.found ∧ aborted.cik10 = state.cik10) := by
  constructor
  · intro hopts hhr hne hparse hlo hhi
    have hcond1 : ¬(state.human_response = none ∨ state.human_response = some "") := by
      rw [hhr]
      simp [hne]
    have hget : state.human_response.getD "" = hr := by rw [hhr]; rfl
    have hcond3 : ¬(i - 1 < 0 ∨ i - 1 ≥ (state.match_options.length : Int)) := by
      push_neg
      omega
    simp only [resolve_company_selection]
    rw [if_neg hcond1, if_neg (by simpa using hopts), hget]
    simp only [hparse]
    rw [if_neg hcond3]
  · intro hbad
    simp only [resolve_company_selection]
    by_cases h1 : state.human_response = none ∨ state.human_response = some ""
    · rw [if_pos h1]
      exact ⟨_, _, rfl, rfl, rfl⟩
    · rw [if_neg h1]
      by_cases h2 : state.match_options = []
      · rw [if_pos h2]
        exact ⟨_, _, rfl, rfl, rfl⟩
      · rw [if_neg h2]
        cases hp : pyInt (state.human_response.getD "") with
        | none =>
          simp only [hp]
          exact ⟨_, _, rfl, rfl, rfl⟩
        | some n =>
          simp only [hp]
          by_cases h3 : (n - 1 < 0 ∨ n - 1 ≥ (state.match_options.length : Int))
          · rw [if_pos h3]
            exact ⟨_, _, rfl, rfl, rfl⟩
          · exfalso
            rcases hbad with hb | hb | hb | hb | ⟨j, hj, hrange⟩
            · exact h1 (Or.inl hb)
            · exact h1 (Or.inr hb)
            · exact h2 hb
            · rw [hp] at hb; exact Option.some_ne_none n hb
            · rw [hp] at hj
              have hnj : n = j := by injection hj
              subst hnj
              push_neg at h3
              omega

theorem resolve_selection_rule_witness :
    resolve_company_selection
      (RState.mk "Apple" "validate_match" none
        [mkCompanyMatch "Apple Inc." "AAPL" "320193",
          mkCompanyMatch "Apple Hospitality REIT" "APLE" "1418121"]
        (some "2") none none false none) =
      Except.ok { RState.mk "Apple" "validate_match" none
        [mkCompanyMatch "Apple Inc." "AAPL" "320193",
          mkCompanyMatch "Apple Hospitality REIT" "APLE" "1418121"]
        (some "2") none none false none with
        current_node := "resolve",
        found := some (mkCompanyMatch "Apple Hospitality REIT" "APLE" "1418121"),
        cik10 := (mkCompanyMatch "Apple Hospitality REIT" "APLE" "1418121").cik10 } := by
  have h := (resolve_selection_rule
    (RState.mk "Apple" "validate_match" none
      [mkCompanyMatch "Apple Inc." "AAPL" "320193",
        mkCompanyMatch "Apple Hospitality REIT" "APLE" "1418121"]
      (some "2") none none false none) "2" 2).1
    (by simp) rfl (by simp) (by decide) (by norm_num) (by norm_num)
  simpa using h

/-! ## Group A fan-out (src/agents/graph_builder.py, parallel_initial_data
lines 113-141; src/nodes/sec_data.py, fetch_sec_data lines 172-215;
src/nodes/web_research.py, fetch_company_profile lines 275-450)

`parallel_initial_data` runs
`asyncio.gather(fetch_sec_data(state), fetch_company_profile(state),
return_exceptions=True)`: BOTH branch coroutines receive the same `state`
object.  Each branch assigns fields of that shared object directly
(`state.current_node = …`, `state.companyfacts = …`, `state.submissions = …`,
`state.company_profile = …`) and returns the very same object, or raises, in
which case `gather` hands back the exception.  A branch is therefore
embedded as the ordered list of field writes it performs on the shared
state plus a completion flag; the two branches' writes are interleaved by
the cooperative schedule, and the merge loop then runs over the gather
results in declaration order, where — by aliasing — every non-exception
result is the shared state itself.  Payload fields are `Option String`
(`none` = Python-falsy: `{}` or `None`). -/

structure GAState where
  current_node : String
  companyfacts : Option String
  submissions : Option String
  company_profile : Option String
  cik10 : Option String
  found : Option String
deriving DecidableEq

inductive GAWrite where
  | set_current_node (v : String)
  | set_companyfacts (v : Option String)
  | set_submissions (v : Option String)
  | set_company_profile (v : Option String)
deriving DecidableEq

def applyWrite (s : GAState) : GAWrite → GAState
  | GAWrite.set_current_node v => { s with current_node := v }
  | GAWrite.set_companyfacts v => { s with companyfacts := v }
  | GAWrite.set_submissions v => { s with submissions := v }
  | GAWrite.set_company_profile v => { s with company_profile := v }

def applyWrites (s : GAState) (ws : List GAWrite) : GAState :=
  ws.foldl applyWrite s

/-- External outcomes of the two HTTP GETs of one `fetch_sec_data` attempt:
`error` models a raised `aiohttp.ClientError` (connection failure or
`raise_for_status`), `ok` the decoded JSON payload. -/
structure SecAttemptEnv where
  companyfacts_fetch : Except String (Option String)
  submissions_fetch : Except String (Option String)

inductive SecOutcome where
  | ok
  | clientError
  | valueError
deriving DecidableEq

/-- One attempt of the `fetch_sec_data` body (lines 172-215): it assigns
`current_node = "sec_fetch"`, raises `ValueError` when `cik10` is absent,
then fetches and assigns `companyfacts`, then fetches and assigns
`submissions`.  Returns the writes performed on the shared state, in
order, and how the attempt ended. -/
def fetchSecAttempt (cik10_present : Bool) (env : SecAttemptEnv) :
    List GAWrite × SecOutcome :=
  if ¬cik10_present then
    ([GAWrite.set_current_node "sec_fetch"], SecOutcome.valueError)
  else
    match env.companyfacts_fetch with
    | Except.error _ =>
      ([GAWrite.set_current_node "sec_fetch"], SecOutcome.clientError)
    | Except.ok cf =>
      match env.submissions_fetch with
      | Except.error _ =>
        ([GAWrite.set_current_node "sec_fetch", GAWrite.set_companyfacts cf],
          SecOutcome.clientError)
      | Except.ok sub =>
        ([GAWrite.set_current_node "sec_fetch", GAWrite.set_companyfacts cf,
            GAWrite.set_submissions sub], SecOutcome.ok)

/-- The `retry(max_attempts=3, exceptions=(aiohttp.ClientError,))`
decorator around a body run against the shared state: every retry re-runs
the body, so the attempts' write traces concatenate; `clientError` is
retryable, `valueError` propagates at once.  (The inner `rate_limit`
wrapper only sleeps and writes no state fields.)  The flag is `true` iff
the decorated call completed without raising. -/
def retryBranch (att : Nat → List GAWrite × SecOutcome) :
    Nat → Nat → List GAWrite × Bool
  | _, 0 => ([], false)
  | i, r + 1 =>
    let a := att i
    match a.2 with
    | SecOutcome.ok => (a.1, true)
    | SecOutcome.valueError => (a.1, false)
    | SecOutcome.clientError =>
      if r = 0 then (a.1, false)
      else
        let rest := retryBranch att (i + 1) r
        (a.1 ++ rest.1, rest.2)

def fetchSecBranch (cik10_present : Bool) (envs : Nat → SecAttemptEnv) :
    List GAWrite × Bool :=
  retryBranch (fun i => fetchSecAttempt cik10_present (envs i)) 0 3

/-- The write trace of `fetch_company_profile` (web_research lines
275-450): assigns `current_node = "web_profile"`; returns at once when
`found` is absent; otherwise runs the web search — an exception from the
search chain propagates (this branch has no retry decorator) after the
`current_node` write; on success the stage always assigns a (truthy)
`CompanyProfile` object. -/
def fetchProfileBranch (found_present : Bool) (search : Except String String) :
    List GAWrite × Bool :=
  if ¬found_present then ([GAWrite.set_current_node "web_profile"], true)
  else
    match search with
    | Except.error _ => ([GAWrite.set_current_node "web_profile"], false)
    | Except.ok p =>
      ([GAWrite.set_current_node "web_profile",
          GAWrite.set_company_profile (some p)], true)

/-- Interleaving of the two branches' pending writes under a cooperative
schedule: `true` performs the next write of branch 1 (`fetch_sec_data`),
`false` of branch 2 (`fetch_company_profile`); when the schedule is
exhausted the remaining writes of branch 1 run, then those of branch 2. -/
def interleave : List GAWrite → List GAWrite → List Bool → List GAWrite
  | [], ys, _ => ys
  | xs, [], _ => xs
  | x :: xs, y :: ys, [] => x :: (xs ++ y :: ys)
  | x :: xs, y :: ys, b :: bs =>
    if b then x :: interleave xs (y :: ys) bs
    else y :: interleave (x :: xs) ys bs

/-- One iteration of the merge loop of `parallel_initial_data`
(lines 129-140) on a non-exception result: each of the three Group A
fields is copied onto the shared state when truthy on the result. -/
def mergeInitialStep (state result : GAState) : GAState :=
  let state := if result.companyfacts.isSome then
    { state with companyfacts := result.companyfacts } else state
  let state := if result.submissions.isSome then
    { state with submissions := result.submissions } else state
  if result.company_profile.isSome then
    { state with company_profile := result.company_profile } else state

/-- The merge loop over the gather results in declaration order.  Because
each branch received and returned the shared state object itself, a
non-exception result read at merge time IS the current shared state;
`raised_flags` records, per branch in declaration order, whether that
branch raised (in which case the loop skips it). -/
def mergeAliased (state : GAState) : List Bool → GAState
  | [] => state
  | raised :: rest =>
    if raised then mergeAliased state rest
    else mergeAliased (mergeInitialStep state state) rest

/-- `parallel_initial_data` over the pre-fan-out state: run the two branch
coroutines against the shared state under cooperative schedule `sched`,
then merge the gather results in declaration order. -/
def parallel_initial_data (state : GAState) (sec_envs : Nat → SecAttemptEnv)
    (search : Except String String) (sched : List Bool) : GAState :=
  let sec := fetchSecBranch state.cik10.isSome sec_envs
  let prof := fetchProfileBranch state.found.isSome search
  let shared := applyWrites state (interleave sec.1 prof.1 sched)
  mergeAliased shared [!sec.2, !prof.2]

/-- The pre-fan-out state of a resolved run entering Group A. -/
def gaInitial : GAState :=
  ⟨"mark_progress", none, none, none, some "0000320193", some "Apple Inc."⟩

/-- Environment in which both SEC fetches succeed on the first attempt. -/
def secEnvOk : Nat → SecAttemptEnv :=
  fun _ => ⟨Except.ok (some "facts"), Except.ok (some "subs")⟩

/-- Environment in which, on every attempt, the companyfacts GET succeeds
but the submissions GET raises, so the decorated branch exhausts its three
attempts and re-raises. -/
def secEnvSubsFail : Nat → SecAttemptEnv :=
  fun _ => ⟨Except.ok (some "facts"), Except.error "503 from SEC"⟩

/-- The merge policy as the specification states it: fold the branch
RESULTS into the PRE-fan-out state in declaration order, where a raised
branch contributes nothing and a returned result overwrites a field only
when its value is present (this definition follows the spec's words, for
comparison against the code's actual behaviour). -/
def mergeClaimed (pre : GAState) (results : List (Option GAState)) : GAState :=
  results.foldl
    (fun st r =>
      match r with
      | none => st
      | some res => mergeInitialStep st res)
    pre

theorem mergeInitialStep_current_node (st r : GAState) :
    (mergeInitialStep st r).current_node = st.current_node := by
  simp only [mergeInitialStep]
  split <;> split <;> split <;> rfl

theorem mergeClaimed_current_node (pre : GAState) :
    ∀ results : List (Option GAState),
      (mergeClaimed pre results).current_node = pre.current_node := by
  have haux : ∀ (results : List (Option GAState)) (st : GAState),
      (results.foldl
        (fun st r =>
          match r with
          | none => st
          | some res => mergeInitialStep st res) st).current_node =
        st.current_node := by
    intro results
    induction results with
    | nil => intro st; rfl
    | cons r rest ih =>
      intro st
      cases r with
      | none => exact ih st
      | some res =>
        simpa [mergeInitialStep_current_node] using ih (mergeInitialStep st res)
  intro results
  exact haux results pre

/-- Claim C1 (code-bug exhibit): the merged state of Group A neither equals
a declaration-order fold of branch results into the pre-fan-out state, nor
is it identical under a permutation of branch completion order.  With both
branches succeeding: no fold of any branch results whatsoever into the
pre-fan-out state equals the state the code actually produces (the fold
can never change `current_node`, which the branches overwrite in place on
the shared object); and the run in which `fetch_sec_data`'s writes all
precede `fetch_company_profile`'s ends with
`current_node = "web_profile"`, while the run in which
`fetch_company_profile`'s writes come first ends with
`current_node = "sec_fetch"` — two different merged states for the same
branch results. -/
theorem merge_not_completion_order_independent :
    (∀ results : List (Option GAState),
      mergeClaimed gaInitial results ≠
        parallel_initial_data gaInitial secEnvOk (Except.ok "profile text") []) ∧
    parallel_initial_data gaInitial secEnvOk (Except.ok "profile text") [] ≠
      parallel_initial_data gaInitial secEnvOk (Except.ok "profile text")
        [false, false] ∧
    (parallel_initial_data gaInitial secEnvOk
      (Except.ok "profile text") []).current_node = "web_profile" ∧
    (parallel_initial_data gaInitial secEnvOk
      (Except.ok "profile text") [false, false]).current_node = "sec_fetch" := by
  refine ⟨?_, ?_, rfl, rfl⟩
  · intro results h
    have hcn := congrArg GAState.current_node h
    rw [mergeClaimed_current_node] at hcn
    have hactual : (parallel_initial_data gaInitial secEnvOk
        (Except.ok "profile text") []).current_node = "web_profile" := rfl
    rw [hactual] at hcn
    simp [gaInitial] at hcn
  · intro h
    have := congrArg GAState.current_node h
    simp [parallel_initial_data, gaInitial, secEnvOk, fetchSecBranch, retryBranch,
      fetchSecAttempt, fetchProfileBranch, interleave, applyWrites, applyWrite,
      mergeAliased, mergeInitialStep] at this

/-- Claim C2 (code-bug exhibit): a Group A branch that raises does NOT
leave its fields at their pre-fan-out values.  When every submissions GET
raises, `fetch_sec_data` raises out of its retry wrapper (its gather
result is the exception, so the merge loop skips it), yet the shared
state's `companyfacts` — pre-fan-out absent — holds the partially fetched
payload, because the branch assigned it on the shared state directly
before raising; the successful profile branch's field is merged. -/
theorem fanout_isolation_violated :
    gaInitial.companyfacts = none ∧
    (fetchSecBranch gaInitial.cik10.isSome secEnvSubsFail).2 = false ∧
    (parallel_initial_data gaInitial secEnvSubsFail
      (Except.ok "profile text") []).companyfacts = some "facts" ∧
    (parallel_initial_data gaInitial secEnvSubsFail
      (Except.ok "profile text") []).company_profile = some "profile text" := by
  refine ⟨rfl, rfl, rfl, rfl⟩

end FiRe
